import Mathlib

/-!
Shallow embedding of the multi-agent workflow orchestrator
(`pro_orchestrator.py`): Python values, the input resolver, the agent
invocation adapter, the step executor with retry/backoff, and the job
state machine. Theorems below settle the spec's claims against these
definitions.
-/

set_option maxRecDepth 4000

/-- Python values as they flow through the orchestrator: `None`, strings,
integers, booleans, dicts (insertion-ordered association lists) and lists. -/
inductive Value where
  | none : Value
  | str : String → Value
  | int : Int → Value
  | bool : Bool → Value
  | dict : List (String × Value) → Value
  | list : List Value → Value

/-- An uncaught Python exception (kind such as `AttributeError`, plus message). -/
structure PyErr where
  kind : String
  msg : String
deriving Repr, DecidableEq

/-- First value bound to a key in a Python dict (association-list lookup). -/
def vlookup (d : List (String × Value)) (k : String) : Option Value :=
  match d with
  | [] => Option.none
  | (k2, v) :: rest => if k2 = k then some v else vlookup rest k

/-- Python dict assignment `d[k] = v`: replace in place if the key exists,
otherwise append (insertion order preserved). -/
def setKey (d : List (String × Value)) (k : String) (v : Value) : List (String × Value) :=
  match d with
  | [] => [(k, v)]
  | (k2, w) :: rest => if k2 = k then (k, v) :: rest else (k2, w) :: setKey rest k v

/-- Python truthiness of a value. -/
def Value.isTruthy : Value → Bool
  | .none => false
  | .str s => s != ""
  | .int n => n != 0
  | .bool b => b
  | .dict d => !d.isEmpty
  | .list l => !l.isEmpty

/-- Python type name of a value, as it appears in error messages. -/
def Value.typeName : Value → String
  | .none => "NoneType"
  | .str _ => "str"
  | .int _ => "int"
  | .bool _ => "bool"
  | .dict _ => "dict"
  | .list _ => "list"

/-- Python `str()`/`repr()` of a value, depth-bounded by fuel so that the
recursion is structural; `r` selects repr mode (strings quoted, as inside
containers). The fuel only bounds container nesting depth and is never
exhausted on the values this development renders. -/
def pyStrF : Nat → Bool → Value → String
  | _, _, .none => "None"
  | _, r, .str s => if r then "\x27" ++ s ++ "\x27" else s
  | _, _, .int n => toString n
  | _, _, .bool b => if b then "True" else "False"
  | Nat.succ fu, _, .dict d =>
      "\x7b" ++ String.intercalate ", "
        (d.map (fun kv => "\x27" ++ kv.1 ++ "\x27: " ++ pyStrF fu true kv.2)) ++ "\x7d"
  | 0, _, .dict _ => "\x7b...\x7d"
  | Nat.succ fu, _, .list l =>
      "[" ++ String.intercalate ", " (l.map (pyStrF fu true)) ++ "]"
  | 0, _, .list _ => "[...]"

/-- Python `str()` of a value (as interpolated into log f-strings). -/
def pyStr (v : Value) : String := pyStrF 1000 false v

/-- The `AttributeError` Python raises for `v.get(...)` on a non-dict `v`. -/
def attrNoGet (v : Value) : PyErr :=
  ⟨ "AttributeError", "\x27" ++ v.typeName ++ "\x27 object has no attribute \x27get\x27" ⟩

/-- Total `v.get(k)` used only where `v` is a dict by construction
(the step outcomes built by the executor); yields `None` when absent. -/
def dGet (v : Value) (k : String) : Value :=
  match v with
  | .dict d => (vlookup d k).getD Value.none
  | _ => Value.none

/-- A step specification (`_run_step`'s reading of the step dict): `name`,
`agent`, literal `input` mapping, `input_path` reference, `retry` (the value
of `int(step.get("retry", 1))`), optional `timeout` seconds. -/
structure StepSpec where
  name : Option String := Option.none
  agent : String
  input : Option (List (String × Value)) := Option.none
  input_path : Option String := Option.none
  retry : Int := 1
  timeout : Option Int := Option.none

/-- One entry of the job's append-only log (`{ts, level, msg}`; the wall-clock
timestamp is outside the embedding and omitted). -/
structure LogEntry where
  level : String
  msg : String
deriving Repr, DecidableEq

/-- One Agent History entry: one attempt of one step with the raw agent
result (`ts_start`/`ts_end`/`duration` are wall-clock and omitted). -/
structure HistEntry where
  name : String
  agent : String
  attempt : Nat
  result : Value

/-- The mutable job record driven by `_execute_workflow`: status, log,
agent history, per-step results, plus the trace of backoff sleeps the
executor performed (in milliseconds, `0.5 s = 500`). -/
structure Job where
  status : String
  logs : List LogEntry
  agent_history : List HistEntry
  result : List Value
  sleeps : List Nat

/-- The job as `start_workflow` creates it: running, with empty log,
history and result list. -/
def initialJob : Job :=
  { status := "running", logs := [], agent_history := [], result := [], sleeps := [] }

/-- Accumulate decimal digits; `Option.none` once a non-digit occurs. -/
def digitsToNat (cs : List Char) (acc : Nat) : Option Nat :=
  match cs with
  | [] => some acc
  | c :: rest => if c.isDigit then digitsToNat rest (acc * 10 + (c.toNat - 48)) else Option.none

/-- A nonempty all-digit character run as a number. -/
def decToNat (cs : List Char) : Option Nat :=
  match cs with
  | [] => Option.none
  | cs => digitsToNat cs 0

/-- Python `int(s)` on a decimal string: optional sign followed by digits,
`Option.none` for a `ValueError`. -/
def pyInt (s : String) : Option Int :=
  match s.data with
  | [] => Option.none
  | c :: rest =>
      if c = '-' then (decToNat rest).map (fun n => -(n : Int))
      else if c = '+' then (decToNat rest).map (fun n => (n : Int))
      else (decToNat (c :: rest)).map (fun n => (n : Int))

/-- Split a character list at `.` separators (Python `s.split(".")`,
empty pieces kept). -/
def splitDotAux (cs : List Char) (cur : List Char) : List String :=
  match cs with
  | [] => [String.mk cur.reverse]
  | c :: rest =>
      if c = '.' then String.mk cur.reverse :: splitDotAux rest []
      else splitDotAux rest (c :: cur)

/-- Python `s.split(".")`. -/
def splitDot (s : String) : List String := splitDotAux s.data []

/-- Python `s.startswith(p)`. -/
def strStartsWith (s p : String) : Bool := p.data.isPrefixOf s.data

/-- Python list indexing `l[i]` with an `Int` index: negative indices count
from the end; `Option.none` models an `IndexError`. -/
def pyIndex (l : List Value) (i : Int) : Option Value :=
  if 0 ≤ i then l.get? i.toNat
  else if 0 ≤ (l.length : Int) + i then l.get? ((l.length : Int) + i).toNat
  else Option.none

/-- The field walk of `_resolve_input`: `for p in rest: val = val.get(p) if
isinstance(val, dict) else None`. -/
def walkFields (val : Value) (fields : List String) : Value :=
  match fields with
  | [] => val
  | p :: ps =>
      walkFields
        (match val with
         | .dict d => (vlookup d p).getD Value.none
         | _ => Value.none) ps

/-- `val = prev_result.get("data") or {}` (Python `or`: keep the left value
when truthy, else the empty dict). -/
def dataOrEmpty (v : Value) : Value :=
  if v.isTruthy then v else Value.dict []

/-- `Orchestrator._resolve_input`: build the payload from `step["input"]`,
then, when `input_path` matches `previous.steps.<idx>.data.<fields>`, attach
the projected value under `_from_previous`; every exception inside the `try`
block (bad `int()`, `IndexError`, `.get` on a non-dict) degrades to the base
payload. The resolver reads only `job["result"]`, passed here as `result`. -/
def resolve_input (step : StepSpec) (result : List Value) : List (String × Value) :=
  let base := step.input.getD []
  match step.input_path with
  | Option.none => base
  | some input_path =>
      if input_path = "" then base
      else if strStartsWith input_path "previous." then
        let parts := splitDot input_path
        if 5 ≤ parts.length ∧ parts.get? 1 = some "steps" ∧ parts.get? 3 = some "data" then
          match pyInt (parts.getD 2 "") with
          | Option.none => base
          | some idx =>
              let res := result
              if idx < (res.length : Int) then
                match pyIndex res idx with
                | Option.none => base
                | some prev_result =>
                    if prev_result.isTruthy then
                      match prev_result with
                      | .dict d =>
                          let val :=
                            walkFields (dataOrEmpty ((vlookup d "data").getD Value.none))
                              (parts.drop 4)
                          setKey base "_from_previous" val
                      | _ => base
                    else base
              else base
        else base
      else base

/-- What invoking an agent's `run`/`arun` entry point on a payload does: it
completes after `dur` abstract time units (seconds) returning a value, or
raises after `dur`, or the object exposes neither method. -/
inductive AgentBehavior where
  | returns (dur : Nat) (v : Value)
  | raises (dur : Nat) (msg : String) (tb : String)
  | noMethod

/-- A registered agent, abstracted as its invocation behavior per payload. -/
def Agent : Type := List (String × Value) → AgentBehavior

/-- The orchestrator's `self.agents` registry (name → agent). -/
def AgentSet : Type := List (String × Agent)

/-- `self.agents.get(agent_name)`. -/
def lookupAgent (agents : AgentSet) (agent_name : String) : Option Agent :=
  match agents with
  | [] => Option.none
  | (k, a) :: rest => if k = agent_name then some a else lookupAgent rest agent_name

/-- Running time of an invocation (the `hasattr` checks are instantaneous). -/
def AgentBehavior.dur : AgentBehavior → Nat
  | .returns d _ => d
  | .raises d _ _ => d
  | .noMethod => 0

/-- The value produced by `_invoke()` when it is allowed to complete: the
agent's return value, or the normalized failure dict for a raised exception
(`except Exception` branch) or a missing `run`/`arun` method. -/
def AgentBehavior.invokeValue : AgentBehavior → Value
  | .returns _ v => v
  | .raises _ msg tb =>
      Value.dict [("status", Value.str "failed"), ("error", Value.str msg),
                  ("traceback", Value.str tb)]
  | .noMethod =>
      Value.dict [("status", Value.str "failed"),
                  ("error", Value.str "agent has no run/arun method")]

/-- Python's `if timeout:` guard — `None` and `0` are falsy. -/
def timeoutActive (timeout : Option Int) : Bool :=
  match timeout with
  | Option.none => false
  | some n => n != 0

/-- `Orchestrator._call_agent`: unknown agent name yields the
not-registered failure; otherwise the invocation runs, wrapped in
`asyncio.wait_for` when a timeout is set, with `asyncio.TimeoutError`
converted to the timeout failure dict. -/
def call_agent (agents : AgentSet) (agent_name : String)
    (payload : List (String × Value)) (timeout : Option Int) : Value :=
  match lookupAgent agents agent_name with
  | Option.none =>
      Value.dict [("status", Value.str "failed"),
        ("error", Value.str ("agent \x27" ++ agent_name ++ "\x27 not registered"))]
  | some agent =>
      let beh := agent payload
      if timeoutActive timeout ∧ (timeout.getD 0) < (beh.dur : Int) then
        Value.dict [("status", Value.str "failed"), ("error", Value.str "timeout")]
      else beh.invokeValue

/-- Python `v == "success"` for the value of a `status` field (only an equal
string compares true). -/
def valueIsSuccessStr : Value → Bool
  | .str s => s == "success"
  | _ => false

/-- Log text `f"Starting {name} (agent={agent_name}) attempt {attempt}"`. -/
def startMsg (name agent_name : String) (att : Nat) : String :=
  "Starting " ++ name ++ " (agent=" ++ agent_name ++ ") attempt " ++ toString att

/-- Log text `f"Finished {name} attempt {attempt} status={...}"`. -/
def finishMsg (name : String) (att : Nat) (statusV : Value) : String :=
  "Finished " ++ name ++ " attempt " ++ toString att ++ " status=" ++ pyStr statusV

/-- Log text `f"{name} attempt {attempt} failed: {...}"`. -/
def warnMsg (name : String) (att : Nat) (errV : Value) : String :=
  name ++ " attempt " ++ toString att ++ " failed: " ++ pyStr errV

/-- The retry loop of `_run_step`: `remaining` is the number of iterations
the `while attempt < retries` loop still has, `attempt` the attempts already
made, `last_err` the current `last_err` binding. An `AttributeError` from
`result.get('status', 'unknown')` on a non-dict result aborts the loop,
carrying the job state mutated so far. -/
def run_step_loop (agents : AgentSet) (step : StepSpec) (name agent_name : String)
    (attempt : Nat) (remaining : Nat) (last_err : Value) (st : Job) :
    Except (PyErr × Job) (Job × Value) :=
  match remaining with
  | 0 => .ok (st, Value.dict [("status", Value.str "failed"), ("error", last_err)])
  | Nat.succ rem =>
      let att := attempt + 1
      let st1 := { st with logs := st.logs ++
        [(⟨ "info", startMsg name agent_name att ⟩ : LogEntry)] }
      let resolved_payload := resolve_input step st1.result
      let result := call_agent agents agent_name resolved_payload step.timeout
      let st2 := { st1 with agent_history := st1.agent_history ++
        [(⟨ name, agent_name, att, result ⟩ : HistEntry)] }
      match result with
      | .dict d =>
          let statusV := (vlookup d "status").getD (Value.str "unknown")
          let st3 := { st2 with logs := st2.logs ++
            [(⟨ "info", finishMsg name att statusV ⟩ : LogEntry)] }
          if valueIsSuccessStr ((vlookup d "status").getD Value.none) then
            .ok (st3, Value.dict [("status", Value.str "success"),
              ("data", (vlookup d "data").getD result)])
          else
            let st4 := { st3 with logs := st3.logs ++
              [(⟨ "warning", warnMsg name att ((vlookup d "error").getD Value.none) ⟩ : LogEntry)] }
            let st5 := { st4 with sleeps := st4.sleeps ++ [500 * 2 ^ attempt] }
            run_step_loop agents step name agent_name att rem result st5
      | other =>
          .error (attrNoGet other, st2)

/-- `name = step.get("name") or f"step_{step_idx}"` (Python `or`: an absent
or empty name falls back to the indexed default). -/
def stepName (step : StepSpec) (step_idx : Nat) : String :=
  match step.name with
  | some s => if s != "" then s else "step_" ++ toString step_idx
  | Option.none => "step_" ++ toString step_idx

/-- `Orchestrator._run_step`: default the step name, run the bounded retry
loop (`int(step.get("retry", 1))` iterations at most), return the step
outcome or propagate an uncaught exception. -/
def run_step (agents : AgentSet) (job : Job) (step_idx : Nat) (step : StepSpec) :
    Except (PyErr × Job) (Job × Value) :=
  run_step_loop agents step (stepName step step_idx) step.agent 0
    step.retry.toNat Value.none job

/-- The step loop of `_execute_workflow` from step `idx` on: run each step,
append the standardized `{status, data}` result, stop with status `failed`
on the first non-success outcome, else finish. -/
def exec_steps (agents : AgentSet) (steps : List StepSpec) (idx : Nat) (job : Job) :
    Except (PyErr × Job) Job :=
  match steps with
  | [] =>
      .ok { job with
              status := "finished",
              logs := job.logs ++ [⟨ "info", "Workflow completed successfully" ⟩] }
  | step :: rest =>
      match run_step agents job idx step with
      | .error e => .error e
      | .ok (job1, step_resp) =>
          let job2 := { job1 with result := job1.result ++
            [Value.dict [("status", dGet step_resp "status"),
                         ("data", dGet step_resp "data")]] }
          if valueIsSuccessStr (dGet step_resp "status") then
            exec_steps agents rest (idx + 1) job2
          else
            .ok { job2 with
                    status := "failed",
                    logs := job2.logs ++ [⟨ "error", "Workflow failed at step "
                      ++ toString idx ++ " ("
                      ++ pyStr (match step.name with
                                | some s => Value.str s
                                | Option.none => Value.none) ++ ")" ⟩] }

/-- `_execute_workflow` on a fresh job (as `start_workflow` creates it). -/
def run_workflow (agents : AgentSet) (steps : List StepSpec) :
    Except (PyErr × Job) Job :=
  exec_steps agents steps 0 initialJob

/-! ### Derived predicates and traces used by the theorems -/

/-- The executor's success test on a raw agent result:
`isinstance(result, dict) and result.get("status") == "success"`. -/
def isSuccessResult (v : Value) : Bool :=
  match v with
  | .dict d => valueIsSuccessStr ((vlookup d "status").getD Value.none)
  | _ => false

/-- The raw agent result is a dict that the executor counts as a failed
attempt (recorded and retried, never raising). -/
def isFailedDictResult (v : Value) : Bool :=
  match v with
  | .dict d => !valueIsSuccessStr ((vlookup d "status").getD Value.none)
  | _ => false

theorem isSuccessResult_elim {v : Value} (h : isSuccessResult v = true) :
    ∃ d, v = Value.dict d ∧ valueIsSuccessStr ((vlookup d "status").getD Value.none) = true := by
  cases v with
  | dict d => exact ⟨d, rfl, by simpa [isSuccessResult] using h⟩
  | none => simp [isSuccessResult] at h
  | str s => simp [isSuccessResult] at h
  | int n => simp [isSuccessResult] at h
  | bool b => simp [isSuccessResult] at h
  | list l => simp [isSuccessResult] at h

theorem isFailedDictResult_elim {v : Value} (h : isFailedDictResult v = true) :
    ∃ d, v = Value.dict d ∧ valueIsSuccessStr ((vlookup d "status").getD Value.none) = false := by
  cases v with
  | dict d => exact ⟨d, rfl, by simpa [isFailedDictResult] using h⟩
  | none => simp [isFailedDictResult] at h
  | str s => simp [isFailedDictResult] at h
  | int n => simp [isFailedDictResult] at h
  | bool b => simp [isFailedDictResult] at h
  | list l => simp [isFailedDictResult] at h

/-- Agent History entries a run of failed attempts appends: attempts
`att+1, …, att+r`, each recording the same raw result `R`. -/
def failHist (name agent_name : String) (R : Value) : Nat → Nat → List HistEntry
  | _, 0 => []
  | att, Nat.succ r => ⟨ name, agent_name, att + 1, R ⟩ :: failHist name agent_name R (att + 1) r

/-- Backoff sleeps a run of failed attempts performs (ms):
`500·2^att, …, 500·2^(att+r-1)` — one after every failed attempt. -/
def failSleeps : Nat → Nat → List Nat
  | _, 0 => []
  | att, Nat.succ r => 500 * 2 ^ att :: failSleeps (att + 1) r

/-- Log entries a run of failed attempts appends. -/
def failLogs (name agent_name : String) (d : List (String × Value)) : Nat → Nat → List LogEntry
  | _, 0 => []
  | att, Nat.succ r =>
      ⟨ "info", startMsg name agent_name (att + 1) ⟩ ::
      ⟨ "info", finishMsg name (att + 1) ((vlookup d "status").getD (Value.str "unknown")) ⟩ ::
      ⟨ "warning", warnMsg name (att + 1) ((vlookup d "error").getD Value.none) ⟩ ::
      failLogs name agent_name d (att + 1) r

theorem failHist_length (name agent_name : String) (R : Value) :
    ∀ att r, (failHist name agent_name R att r).length = r := by
  intro att r
  induction r generalizing att with
  | zero => simp [failHist]
  | succ r ih => simp [failHist, ih]

theorem failHist_map_attempt (name agent_name : String) (R : Value) :
    ∀ att r, (failHist name agent_name R att r).map HistEntry.attempt
      = (List.range r).map (fun i => att + 1 + i) := by
  intro att r
  induction r generalizing att with
  | zero => simp [failHist]
  | succ r ih =>
      simp only [failHist, List.map_cons, ih, List.range_succ_eq_map, List.map_map]
      congr 1
      all_goals first
        | omega
        | · apply List.map_congr_left
            intro i _
            simp only [Function.comp]
            try omega

theorem failHist_map_agent (name agent_name : String) (R : Value) :
    ∀ att r, (failHist name agent_name R att r).map HistEntry.agent
      = List.replicate r agent_name := by
  intro att r
  induction r generalizing att with
  | zero => simp [failHist]
  | succ r ih => simp [failHist, ih, List.replicate_succ]

theorem failHist_map_result (name agent_name : String) (R : Value) :
    ∀ att r, (failHist name agent_name R att r).map HistEntry.result
      = List.replicate r R := by
  intro att r
  induction r generalizing att with
  | zero => simp [failHist]
  | succ r ih => simp [failHist, ih, List.replicate_succ]

theorem failSleeps_eq :
    ∀ att r, failSleeps att r = (List.range r).map (fun i => 500 * 2 ^ (att + i)) := by
  intro att r
  induction r generalizing att with
  | zero => simp [failSleeps]
  | succ r ih =>
      simp only [failSleeps, ih, List.range_succ_eq_map, List.map_cons, List.map_map]
      congr 1
      apply List.map_congr_left
      intro a _
      simp only [Function.comp_apply]
      have h2 : att + 1 + a = att + a.succ := by omega
      rw [h2]

/-! ### Step executor lemmas -/

theorem run_step_loop_fail (agents : AgentSet) (step : StepSpec)
    (name agent_name : String) (d : List (String × Value)) (res : List Value)
    (hd : call_agent agents agent_name (resolve_input step res) step.timeout = Value.dict d)
    (hns : valueIsSuccessStr ((vlookup d "status").getD Value.none) = false) :
    ∀ (remaining attempt : Nat) (last_err : Value) (st : Job), st.result = res →
      run_step_loop agents step name agent_name attempt remaining last_err st =
        Except.ok
          ({ status := st.status,
             logs := st.logs ++ failLogs name agent_name d attempt remaining,
             agent_history := st.agent_history
               ++ failHist name agent_name (Value.dict d) attempt remaining,
             result := st.result,
             sleeps := st.sleeps ++ failSleeps attempt remaining },
           Value.dict [("status", Value.str "failed"),
             ("error", if remaining = 0 then last_err else Value.dict d)]) := by
  intro remaining
  induction remaining with
  | zero =>
      intro attempt last_err st hres
      simp [run_step_loop, failLogs, failHist, failSleeps]
  | succ rem ih =>
      intro attempt last_err st hres
      subst hres
      simp only [run_step_loop, hd, hns, Bool.false_eq_true, if_false]
      refine ((ih (attempt + 1) (Value.dict d)
        { status := st.status,
          logs := st.logs ++ [⟨ "info", startMsg name agent_name (attempt + 1) ⟩]
              ++ [⟨ "info", finishMsg name (attempt + 1)
                    ((vlookup d "status").getD (Value.str "unknown")) ⟩]
              ++ [⟨ "warning", warnMsg name (attempt + 1)
                    ((vlookup d "error").getD Value.none) ⟩],
          agent_history := st.agent_history
              ++ [⟨ name, agent_name, attempt + 1, Value.dict d ⟩],
          result := st.result,
          sleeps := st.sleeps ++ [500 * 2 ^ attempt] } rfl).trans ?_)
      simp [failLogs, failHist, failSleeps, List.append_assoc]

theorem run_step_loop_success (agents : AgentSet) (step : StepSpec)
    (name agent_name : String) (d : List (String × Value)) (res : List Value)
    (hd : call_agent agents agent_name (resolve_input step res) step.timeout = Value.dict d)
    (hs : valueIsSuccessStr ((vlookup d "status").getD Value.none) = true) :
    ∀ (rem attempt : Nat) (last_err : Value) (st : Job), st.result = res →
      run_step_loop agents step name agent_name attempt (rem + 1) last_err st =
        Except.ok
          ({ status := st.status,
             logs := st.logs ++
               [⟨ "info", startMsg name agent_name (attempt + 1) ⟩,
                ⟨ "info", finishMsg name (attempt + 1)
                    ((vlookup d "status").getD (Value.str "unknown")) ⟩],
             agent_history := st.agent_history
               ++ [⟨ name, agent_name, attempt + 1, Value.dict d ⟩],
             result := st.result,
             sleeps := st.sleeps },
           Value.dict [("status", Value.str "success"),
             ("data", (vlookup d "data").getD (Value.dict d))]) := by
  intro rem attempt last_err st hres
  subst hres
  simp [run_step_loop, hd, hs]

theorem run_step_fail (agents : AgentSet) (job : Job) (step_idx : Nat) (step : StepSpec)
    (d : List (String × Value))
    (hd : call_agent agents step.agent (resolve_input step job.result) step.timeout
      = Value.dict d)
    (hns : valueIsSuccessStr ((vlookup d "status").getD Value.none) = false) :
    run_step agents job step_idx step =
      Except.ok
        ({ status := job.status,
           logs := job.logs
             ++ failLogs (stepName step step_idx) step.agent d 0 step.retry.toNat,
           agent_history := job.agent_history
             ++ failHist (stepName step step_idx) step.agent (Value.dict d) 0 step.retry.toNat,
           result := job.result,
           sleeps := job.sleeps ++ failSleeps 0 step.retry.toNat },
         Value.dict [("status", Value.str "failed"),
           ("error", if step.retry.toNat = 0 then Value.none else Value.dict d)]) :=
  run_step_loop_fail agents step (stepName step step_idx) step.agent d job.result hd hns
    step.retry.toNat 0 Value.none job rfl

theorem run_step_success (agents : AgentSet) (job : Job) (step_idx : Nat) (step : StepSpec)
    (d : List (String × Value))
    (h1 : 1 ≤ step.retry)
    (hd : call_agent agents step.agent (resolve_input step job.result) step.timeout
      = Value.dict d)
    (hs : valueIsSuccessStr ((vlookup d "status").getD Value.none) = true) :
    run_step agents job step_idx step =
      Except.ok
        ({ status := job.status,
           logs := job.logs ++
             [⟨ "info", startMsg (stepName step step_idx) step.agent 1 ⟩,
              ⟨ "info", finishMsg (stepName step step_idx) 1
                  ((vlookup d "status").getD (Value.str "unknown")) ⟩],
           agent_history := job.agent_history
             ++ [⟨ stepName step step_idx, step.agent, 1, Value.dict d ⟩],
           result := job.result,
           sleeps := job.sleeps },
         Value.dict [("status", Value.str "success"),
           ("data", (vlookup d "data").getD (Value.dict d))]) := by
  have hk : step.retry.toNat = (step.retry.toNat - 1) + 1 := by omega
  show run_step_loop agents step (stepName step step_idx) step.agent 0
      step.retry.toNat Value.none job = _
  rw [hk]
  exact run_step_loop_success agents step (stepName step step_idx) step.agent d job.result
    hd hs (step.retry.toNat - 1) 0 Value.none job rfl

/-! ### Job state machine lemmas -/

theorem exec_steps_fail_head (agents : AgentSet) (rest : List StepSpec)
    (idx : Nat) (job job1 : Job) (step : StepSpec) (out : Value)
    (hrun : run_step agents job idx step = Except.ok (job1, out))
    (hns : valueIsSuccessStr (dGet out "status") = false) :
    exec_steps agents (step :: rest) idx job =
      Except.ok
        { status := "failed",
          logs := job1.logs ++ [⟨ "error", "Workflow failed at step " ++ toString idx
            ++ " (" ++ pyStr (match step.name with
                              | some s => Value.str s
                              | Option.none => Value.none) ++ ")" ⟩],
          agent_history := job1.agent_history,
          result := job1.result
            ++ [Value.dict [("status", dGet out "status"), ("data", dGet out "data")]],
          sleeps := job1.sleeps } := by
  simp [exec_steps, hrun, hns]

theorem exec_steps_success_front (agents : AgentSet) :
    ∀ (pre rest : List StepSpec) (idx : Nat) (job : Job),
      (∀ s ∈ pre, 1 ≤ s.retry) →
      (∀ s ∈ pre, ∀ payload, isSuccessResult (call_agent agents s.agent payload s.timeout)
        = true) →
      ∃ jobMid : Job,
        exec_steps agents (pre ++ rest) idx job
          = exec_steps agents rest (idx + pre.length) jobMid ∧
        jobMid.status = job.status ∧
        jobMid.result.length = job.result.length + pre.length ∧
        jobMid.agent_history.map (fun e => (e.attempt, e.agent))
          = job.agent_history.map (fun e => (e.attempt, e.agent))
            ++ pre.map (fun s => (1, s.agent)) ∧
        jobMid.sleeps = job.sleeps := by
  intro pre
  induction pre with
  | nil =>
      intro rest idx job h1 h2
      exact ⟨job, by simp, rfl, by simp, by simp, rfl⟩
  | cons sp pre ih =>
      intro rest idx job h1 h2
      obtain ⟨d, hd, hds⟩ :=
        isSuccessResult_elim (h2 sp (by simp) (resolve_input sp job.result))
      have hrun := run_step_success agents job idx sp d (h1 sp (by simp)) hd hds
      obtain ⟨jobMid, hexec, hstat, hlen, hhist, hsleep⟩ :=
        ih rest (idx + 1)
          { status := job.status,
            logs := (job.logs ++
              [⟨ "info", startMsg (stepName sp idx) sp.agent 1 ⟩,
               ⟨ "info", finishMsg (stepName sp idx) 1
                   ((vlookup d "status").getD (Value.str "unknown")) ⟩]),
            agent_history := job.agent_history
              ++ [⟨ stepName sp idx, sp.agent, 1, Value.dict d ⟩],
            result := job.result
              ++ [Value.dict [("status", Value.str "success"),
                  ("data", (vlookup d "data").getD (Value.dict d))]],
            sleeps := job.sleeps }
          (fun s2 hs2 => h1 s2 (by simp [hs2]))
          (fun s2 hs2 => h2 s2 (by simp [hs2]))
      refine ⟨jobMid, ?_, ?_, ?_, ?_, ?_⟩
      · rw [List.cons_append]
        rw [show exec_steps agents (sp :: (pre ++ rest)) idx job
              = exec_steps agents (pre ++ rest) (idx + 1)
                { status := job.status,
                  logs := (job.logs ++
                    [⟨ "info", startMsg (stepName sp idx) sp.agent 1 ⟩,
                     ⟨ "info", finishMsg (stepName sp idx) 1
                         ((vlookup d "status").getD (Value.str "unknown")) ⟩]),
                  agent_history := job.agent_history
                    ++ [⟨ stepName sp idx, sp.agent, 1, Value.dict d ⟩],
                  result := job.result
                    ++ [Value.dict [("status", Value.str "success"),
                        ("data", (vlookup d "data").getD (Value.dict d))]],
                  sleeps := job.sleeps }
            from by simp [exec_steps, hrun, dGet, vlookup, valueIsSuccessStr]]
        rw [hexec]
        congr 1
        simp [List.length_cons]
        omega
      · simpa using hstat
      · simp only [List.length_cons]
        simp at hlen
        omega
      · rw [hhist]
        simp [List.append_assoc]
      · simpa using hsleep

theorem failHist_map_pair (name agent_name : String) (R : Value) :
    ∀ att r, (failHist name agent_name R att r).map (fun e => (e.attempt, e.agent))
      = (List.range r).map (fun i => (att + 1 + i, agent_name)) := by
  intro att r
  induction r generalizing att with
  | zero => simp [failHist]
  | succ r ih =>
      simp only [failHist, List.map_cons, ih, List.range_succ_eq_map, List.map_map]
      congr 1
      all_goals first
        | omega
        | · apply List.map_congr_left
            intro i _
            simp only [Function.comp_apply, Prod.mk.injEq]
            constructor
            · omega
            · trivial

theorem walkFields_none : ∀ fs : List String, walkFields Value.none fs = Value.none := by
  intro fs
  induction fs with
  | nil => simp [walkFields]
  | cons f fs ih => simpa [walkFields] using ih

theorem walkFields_append (v : Value) (l1 l2 : List String) :
    walkFields v (l1 ++ l2) = walkFields (walkFields v l1) l2 := by
  induction l1 generalizing v with
  | nil => simp [walkFields]
  | cons p ps ih =>
      simp only [List.cons_append, walkFields]
      exact ih _

theorem exec_steps_all_success (agents : AgentSet) (steps : List StepSpec)
    (idx : Nat) (job : Job)
    (h1 : ∀ s ∈ steps, 1 ≤ s.retry)
    (h2 : ∀ s ∈ steps, ∀ payload,
      isSuccessResult (call_agent agents s.agent payload s.timeout) = true) :
    ∃ jobF : Job,
      exec_steps agents steps idx job = Except.ok jobF ∧
      jobF.status = "finished" ∧
      jobF.result.length = job.result.length + steps.length ∧
      jobF.agent_history.map (fun e => (e.attempt, e.agent))
        = job.agent_history.map (fun e => (e.attempt, e.agent))
          ++ steps.map (fun s => (1, s.agent)) ∧
      jobF.sleeps = job.sleeps := by
  obtain ⟨jobMid, hexec, hstat, hlen, hhist, hsleep⟩ :=
    exec_steps_success_front agents steps [] idx job h1 h2
  rw [List.append_nil] at hexec
  refine ⟨{ jobMid with
              status := "finished",
              logs := jobMid.logs ++ [⟨ "info", "Workflow completed successfully" ⟩] },
    ?_, rfl, by simpa using hlen, by simpa using hhist, by simpa using hsleep⟩
  rw [hexec]
  simp [exec_steps]

/-! ### Concrete fixtures for witnesses and counterexamples -/

/-- An agent that always succeeds (returns a success dict in 1 s). -/
def okAgent : Agent := fun _ =>
  AgentBehavior.returns 1
    (Value.dict [("status", Value.str "success"), ("data", Value.dict [("html", Value.str "hi")])])

/-- An agent that always fails with a failure dict. -/
def badAgent : Agent := fun _ =>
  AgentBehavior.returns 1 (Value.dict [("status", Value.str "failed"), ("error", Value.str "boom")])

/-- An agent whose return value is not a dict (a bare string). -/
def oddAgent : Agent := fun _ => AgentBehavior.returns 1 (Value.str "oops")

/-- An agent whose invocation raises an exception. -/
def boomAgent : Agent := fun _ => AgentBehavior.raises 0 "kaboom" "Traceback (most recent call last): ..."

/-- An agent that needs 5 s to produce its success dict. -/
def slowAgent : Agent := fun _ =>
  AgentBehavior.returns 5 (Value.dict [("status", Value.str "success"), ("data", Value.dict [])])

/-- A registry with the fixture agents. -/
def demoAgents : AgentSet :=
  [("ok", okAgent), ("bad", badAgent), ("weird", oddAgent), ("boom", boomAgent), ("slow", slowAgent)]

/-! ### The claims -/

/-- C1: for every workflow with N steps (each with a positive retry budget,
as the Step Spec data model requires), if every agent invocation returns a
dict with status `success`, then execution completes with job status
`finished`, a Result list of length N, and an Agent History containing
exactly one entry per step, each with attempt number 1. -/
theorem claim1_all_success_workflow (agents : AgentSet) (steps : List StepSpec)
    (h1 : ∀ s ∈ steps, 1 ≤ s.retry)
    (h2 : ∀ s ∈ steps, ∀ payload,
      isSuccessResult (call_agent agents s.agent payload s.timeout) = true) :
    ∃ jobF : Job,
      run_workflow agents steps = Except.ok jobF ∧
      jobF.status = "finished" ∧
      jobF.result.length = steps.length ∧
      jobF.agent_history.length = steps.length ∧
      jobF.agent_history.map HistEntry.attempt = List.replicate steps.length 1 ∧
      jobF.agent_history.map HistEntry.agent = steps.map StepSpec.agent := by
  obtain ⟨jobF, hex, hstat, hlen, hhist, hsleep⟩ :=
    exec_steps_all_success agents steps 0 initialJob h1 h2
  refine ⟨jobF, hex, hstat, by simpa [initialJob] using hlen, ?_, ?_, ?_⟩
  · have h3 := congrArg List.length hhist
    simpa [initialJob] using h3
  · have h3 := congrArg (List.map Prod.fst) hhist
    simp only [initialJob, List.map_map, List.map_nil, List.nil_append, List.map_append] at h3
    simpa [Function.comp_def, List.map_const'] using h3
  · have h3 := congrArg (List.map Prod.snd) hhist
    simp only [initialJob, List.map_map, List.map_nil, List.nil_append, List.map_append] at h3
    simpa [Function.comp_def] using h3

/-- C2: a step with retry budget `k ≥ 1` whose agent fails (returns a
non-success dict) on every attempt contributes exactly `k` Agent History
entries, its step outcome is `{status: failed, error: <the last raw agent
result>}`, the job ends `failed`, the Result list stops at the failing
step's index + 1, and no later step is ever executed. -/
theorem claim2_failing_step_exhausts_retries (agents : AgentSet)
    (pre post : List StepSpec) (fs : StepSpec) (k : Nat)
    (h1 : ∀ s ∈ pre, 1 ≤ s.retry)
    (h2 : ∀ s ∈ pre, ∀ payload,
      isSuccessResult (call_agent agents s.agent payload s.timeout) = true)
    (hk : fs.retry = (k : Int)) (hk1 : 1 ≤ k)
    (hf : ∀ payload, isFailedDictResult (call_agent agents fs.agent payload fs.timeout) = true) :
    (∀ (job2 : Job) (idx : Nat), ∃ job3 : Job,
      run_step agents job2 idx fs = Except.ok (job3,
        Value.dict [("status", Value.str "failed"),
          ("error", call_agent agents fs.agent (resolve_input fs job2.result) fs.timeout)]) ∧
      job3.agent_history.length = job2.agent_history.length + k) ∧
    ∃ jobF : Job,
      run_workflow agents (pre ++ fs :: post) = Except.ok jobF ∧
      jobF.status = "failed" ∧
      jobF.result.length = pre.length + 1 ∧
      jobF.agent_history.length = pre.length + k ∧
      jobF.agent_history.map (fun e => (e.attempt, e.agent))
        = pre.map (fun s => (1, s.agent))
          ++ (List.range k).map (fun i => (i + 1, fs.agent)) := by
  have hkk : fs.retry.toNat = k := by omega
  have hkne : fs.retry.toNat ≠ 0 := by omega
  constructor
  · intro job2 idx
    obtain ⟨d2, hd2, hns2⟩ := isFailedDictResult_elim (hf (resolve_input fs job2.result))
    have hr := run_step_fail agents job2 idx fs d2 hd2 hns2
    rw [if_neg hkne] at hr
    rw [show Value.dict d2
        = call_agent agents fs.agent (resolve_input fs job2.result) fs.timeout
      from hd2.symm] at hr
    refine ⟨_, hr, ?_⟩
    simp [failHist_length, hkk]
  · obtain ⟨jobMid, hexec, hstat, hlen, hhist, hsleep⟩ :=
      exec_steps_success_front agents pre (fs :: post) 0 initialJob h1 h2
    obtain ⟨d2, hd2, hns2⟩ := isFailedDictResult_elim (hf (resolve_input fs jobMid.result))
    have hrun := run_step_fail agents jobMid (0 + pre.length) fs d2 hd2 hns2
    have hhead := exec_steps_fail_head agents post (0 + pre.length) jobMid _ fs _ hrun
      (by rw [if_neg hkne]; rfl)
    have hcomb := hexec.trans hhead
    simp only [initialJob, List.map_nil, List.nil_append, List.length_nil, Nat.zero_add]
      at hlen hhist
    refine ⟨_, hcomb, rfl, ?_, ?_, ?_⟩
    · simp [hlen]
    · have h4 := congrArg List.length hhist
      simp only [List.length_map] at h4
      simp only [List.length_append, failHist_length, hkk]
      omega
    · simp only [List.map_append, failHist_map_pair, hkk, hhist]
      congr 1
      apply List.map_congr_left
      intro i _
      simp only [Prod.mk.injEq]
      exact ⟨by omega, trivial⟩

/-- A step that always fails and has a retry budget of exactly 1. -/
def oneRetryFailStep : StepSpec := { agent := "bad", retry := 1 }

/-- C3 counterexample: with `retry = 1` the only attempt is the final
permitted attempt, yet after it fails the executor still performs the
0.5 s backoff sleep before returning — the claim says no backoff sleep
occurs after the last failed attempt. -/
theorem claim3_cex_sleep_after_final_attempt :
    Except.map (fun p => p.1.sleeps) (run_step demoAgents initialJob 0 oneRetryFailStep)
      = Except.ok [500] := rfl

/-- C3 (amended): within one step's retry loop the exponential backoff
sleep of `0.5 · 2^(attempt-1)` seconds is performed after every failed
attempt — including the final permitted attempt: a step whose every call
fails with retry budget `retry` performs exactly `retry` sleeps
`500·2^0, …, 500·2^(retry-1)` ms, one after each failed attempt. -/
theorem claim3_backoff_after_every_failed_attempt (agents : AgentSet) (job : Job)
    (idx : Nat) (step : StepSpec) (d : List (String × Value))
    (hd : call_agent agents step.agent (resolve_input step job.result) step.timeout
      = Value.dict d)
    (hns : valueIsSuccessStr ((vlookup d "status").getD Value.none) = false) :
    ∃ (job3 : Job) (out : Value),
      run_step agents job idx step = Except.ok (job3, out) ∧
      job3.sleeps = job.sleeps
        ++ (List.range step.retry.toNat).map (fun i => 500 * 2 ^ i) ∧
      job3.agent_history.length = job.agent_history.length + step.retry.toNat := by
  refine ⟨_, _, run_step_fail agents job idx step d hd hns, ?_, ?_⟩
  · simp [failSleeps_eq]
  · simp [failHist_length]

/-- A step delegated to the agent that returns a bare string. -/
def nonDictStep : StepSpec := { agent := "weird" }

/-- The job state at the moment `_run_step` crashes on a non-dict agent
result: the starting log and the history entry were appended, then the
f-string `result.get('status', 'unknown')` raised. -/
def nonDictCrashJob : Job :=
  { status := "running",
    logs := [⟨ "info", startMsg "step_0" "weird" 1 ⟩],
    agent_history := [⟨ "step_0", "weird", 1, Value.str "oops" ⟩],
    result := [],
    sleeps := [] }

/-- C4: contrary to the claim (and to the intent visible in the
`isinstance(result, dict)` guards of lines 164 and 169), an agent returning
a non-dict value makes the step executor raise: the completion log's
`result.get('status', 'unknown')` (line 161) runs before any dict check and
raises `AttributeError`, which propagates into the job's background
execution. -/
theorem claim4_nondict_result_raises :
    run_step demoAgents initialJob 0 nonDictStep
      = Except.error (attrNoGet (Value.str "oops"), nonDictCrashJob) := rfl

/-- C9: invoking an agent name absent from the registry yields exactly
`{status: failed, error: "agent '<name>' not registered"}` — for every
payload and timeout, without raising — and a step using that name consumes
exactly its configured retry budget of attempts (Agent History grows by
`retry` entries) while leaving the job's status and Result list untouched. -/
theorem claim9_unregistered_agent (agents : AgentSet) (name : String)
    (hl : lookupAgent agents name = Option.none) :
    (∀ payload timeout, call_agent agents name payload timeout
      = Value.dict [("status", Value.str "failed"),
          ("error", Value.str ("agent \x27" ++ name ++ "\x27 not registered"))]) ∧
    (∀ (job : Job) (idx : Nat) (step : StepSpec), step.agent = name →
      ∃ (job3 : Job) (out : Value),
        run_step agents job idx step = Except.ok (job3, out) ∧
        job3.agent_history.length = job.agent_history.length + step.retry.toNat ∧
        job3.result = job.result ∧ job3.status = job.status) := by
  have hcall : ∀ payload timeout, call_agent agents name payload timeout
      = Value.dict [("status", Value.str "failed"),
          ("error", Value.str ("agent \x27" ++ name ++ "\x27 not registered"))] := by
    intro payload timeout
    unfold call_agent
    rw [hl]
  refine ⟨hcall, ?_⟩
  intro job idx step hagent
  subst hagent
  refine ⟨_, _, run_step_fail agents job idx step _ (hcall _ _) rfl, ?_, rfl, rfl⟩
  simp [failHist_length]

/-- A step whose converted retry value is 0. -/
def zeroRetryStep : StepSpec := { agent := "ok", retry := 0 }

/-- C10: a step with `retry ≤ 0` performs zero attempts — the job record is
returned unchanged (no Agent History entry, no log entry, no sleep), the
outcome is `{status: failed, error: None}`, and a workflow reaching such a
step fails there with the standardized `{status: failed, data: None}`
Result entry appended. -/
theorem claim10_zero_retry_no_attempts (agents : AgentSet) (job : Job) (idx : Nat)
    (step : StepSpec) (hr : step.retry ≤ 0) :
    run_step agents job idx step
      = Except.ok (job, Value.dict [("status", Value.str "failed"), ("error", Value.none)]) ∧
    (∀ rest : List StepSpec, ∃ jobF : Job,
      exec_steps agents (step :: rest) idx job = Except.ok jobF ∧
      jobF.status = "failed" ∧
      jobF.agent_history = job.agent_history ∧
      jobF.result = job.result
        ++ [Value.dict [("status", Value.str "failed"), ("data", Value.none)]]) := by
  have h0 : step.retry.toNat = 0 := by omega
  have hrun : run_step agents job idx step
      = Except.ok (job, Value.dict [("status", Value.str "failed"), ("error", Value.none)]) := by
    unfold run_step
    rw [h0]
    rfl
  refine ⟨hrun, ?_⟩
  intro rest
  exact ⟨_, exec_steps_fail_head agents rest idx job job step _ hrun rfl, rfl, rfl, rfl⟩

/-- The step of the C5/C6 counterexamples, projecting field `f` of step 0's
data (respectively of the last step's data, via index `-1`). -/
def prevFieldStep : StepSpec := { agent := "x", input_path := some "previous.steps.0.data.f" }

/-- A Result list whose only entry is a failed step's record
(`data` is `None`, as `_execute_workflow` writes for failed steps). -/
def failedPrevResult : List Value :=
  [Value.dict [("status", Value.str "failed"), ("data", Value.none)]]

/-- C5 counterexample: the referenced step is in range but its `data` is
absent (`None`); the claim says the payload is returned without the
`_from_previous` key, yet resolution returns the payload WITH
`_from_previous` present, bound to `None` (the code unconditionally assigns
`base["_from_previous"] = val` once the indexed entry is truthy). -/
theorem claim5_cex_key_present :
    resolve_input prevFieldStep failedPrevResult = [("_from_previous", Value.none)] ∧
    vlookup (resolve_input prevFieldStep failedPrevResult) "_from_previous"
      = some Value.none :=
  ⟨rfl, rfl⟩

/-- C5 (amended): for an `input_path` matching
`previous.steps.<idx>.data.<fields>` with a non-negative `idx`, an
out-of-range `idx` resolves to the payload built from `input` alone (no
`_from_previous` key added); an in-range `idx` whose entry is a truthy
dict with absent/falsy `data` resolves to the payload with
`_from_previous` present and bound to `None`; and likewise when `data` is
present and truthy but an intermediate field lookup fails (the walked
value at some field is not a mapping, or the key is missing), the payload
carries `_from_previous` bound to `None`. No exception propagates in any
of these cases. -/

theorem claim5_degraded_resolution (step : StepSpec) (result : List Value)
    (path s : String) (fields : List String) (idx : Int)
    (hpath : step.input_path = some path)
    (hne : ¬ path = "")
    (hpre : strStartsWith path "previous." = true)
    (hsplit : splitDot path = "previous" :: "steps" :: s :: "data" :: fields)
    (hfld : fields ≠ [])
    (hidx : pyInt s = some idx) (h0 : 0 ≤ idx) :
    ((result.length : Int) ≤ idx → resolve_input step result = step.input.getD []) ∧
    (∀ dd : List (String × Value),
      pyIndex result idx = some (Value.dict dd) → dd ≠ [] →
      ((vlookup dd "data").getD Value.none).isTruthy = false →
      resolve_input step result
        = setKey (step.input.getD []) "_from_previous" Value.none) ∧
    (∀ (dd : List (String × Value)) (fs1 : List String) (f : String) (fs2 : List String),
      pyIndex result idx = some (Value.dict dd) → dd ≠ [] →
      fields = fs1 ++ f :: fs2 →
      (∀ e, walkFields (dataOrEmpty ((vlookup dd "data").getD Value.none)) fs1
        = Value.dict e → vlookup e f = Option.none) →
      resolve_input step result
        = setKey (step.input.getD []) "_from_previous" Value.none) := by
  have hlen5 : 5 ≤ (splitDot path).length := by
    rw [hsplit]
    simp only [List.length_cons]
    have := List.length_pos.mpr hfld
    omega
  have hcond : 5 ≤ (splitDot path).length ∧ (splitDot path).get? 1 = some "steps"
      ∧ (splitDot path).get? 3 = some "data" := by
    refine ⟨hlen5, ?_, ?_⟩ <;> rw [hsplit] <;> rfl
  have hgetD : (splitDot path).getD 2 "" = s := by rw [hsplit]; rfl
  refine ⟨?_, ?_, ?_⟩
  · intro hge
    simp only [resolve_input, hpath]
    rw [if_neg hne]
    rw [if_pos hpre]
    rw [if_pos hcond]
    rw [hgetD, hidx]
    simp only []
    rw [if_neg (not_lt.mpr hge)]
  · intro dd hget hddne hdata
    have hsome : result.get? idx.toNat = some (Value.dict dd) := by
      have hp := hget
      unfold pyIndex at hp
      rw [if_pos h0] at hp
      exact hp
    obtain ⟨hlt9, -⟩ := List.get?_eq_some.mp hsome
    have hlt : idx < (result.length : Int) := by omega
    simp only [resolve_input, hpath]
    rw [if_neg hne]
    rw [if_pos hpre]
    rw [if_pos hcond]
    rw [hgetD, hidx]
    simp only []
    rw [if_pos hlt]
    rw [hget]
    simp only []
    have htr : (Value.dict dd).isTruthy = true := by
      simp [Value.isTruthy, hddne]
    rw [if_pos htr]
    have hdoe : dataOrEmpty ((vlookup dd "data").getD Value.none) = Value.dict [] := by
      unfold dataOrEmpty
      rw [if_neg]
      rw [hdata]
      simp
    have hdrop : List.drop 4 (splitDot path) = fields := by rw [hsplit]; rfl
    rw [hdoe, hdrop]
    obtain ⟨f, fs, rfl⟩ := List.exists_cons_of_ne_nil hfld
    simp [walkFields, vlookup, walkFields_none]
  · intro dd fs1 f fs2 hget hddne hdecomp hfail
    have hsome : result.get? idx.toNat = some (Value.dict dd) := by
      have hp := hget
      unfold pyIndex at hp
      rw [if_pos h0] at hp
      exact hp
    obtain ⟨hlt9, -⟩ := List.get?_eq_some.mp hsome
    have hlt : idx < (result.length : Int) := by omega
    simp only [resolve_input, hpath]
    rw [if_neg hne]
    rw [if_pos hpre]
    rw [if_pos hcond]
    rw [hgetD, hidx]
    simp only []
    rw [if_pos hlt]
    rw [hget]
    simp only []
    have htr : (Value.dict dd).isTruthy = true := by
      simp [Value.isTruthy, hddne]
    rw [if_pos htr]
    have hdrop : List.drop 4 (splitDot path) = fields := by rw [hsplit]; rfl
    rw [hdrop]
    have hwalk : walkFields (dataOrEmpty ((vlookup dd "data").getD Value.none)) fields
        = Value.none := by
      rw [hdecomp, walkFields_append]
      cases hw : walkFields (dataOrEmpty ((vlookup dd "data").getD Value.none)) fs1 with
      | dict e =>
          simp only [walkFields, hfail e hw]
          exact walkFields_none fs2
      | none =>
          simp only [walkFields]
          exact walkFields_none fs2
      | str s2 =>
          simp only [walkFields]
          exact walkFields_none fs2
      | int n2 =>
          simp only [walkFields]
          exact walkFields_none fs2
      | bool b2 =>
          simp only [walkFields]
          exact walkFields_none fs2
      | list l2 =>
          simp only [walkFields]
          exact walkFields_none fs2
    rw [hwalk]

/-- The C6 counterexample step: `<idx>` is `-1`. -/
def negIndexStep : StepSpec := { agent := "x", input_path := some "previous.steps.-1.data.f" }

/-- A Result list with one successful entry carrying `data = {f: 42}`. -/
def negPrevResult : List Value :=
  [Value.dict [("status", Value.str "success"), ("data", Value.dict [("f", Value.int 42)])]]

/-- C6 counterexample: `previous.steps.-1.data.f` DOES match the recognized
pattern — `int("-1")` parses and `-1 < len(result)` holds, so Python's
negative indexing projects `f` from the LAST completed step into
`_from_previous`; the claim says the payload stays as built from `input`
only and nothing is ever projected. -/
theorem claim6_cex_negative_index_projects :
    resolve_input negIndexStep negPrevResult = [("_from_previous", Value.int 42)] ∧
    vlookup (resolve_input negIndexStep negPrevResult) "_from_previous"
      = some (Value.int 42) :=
  ⟨rfl, rfl⟩

/-- C6 (amended): an `input_path` whose `<idx>` parses as a negative integer
is still accepted; `result[idx]` then follows Python negative-indexing
semantics — when `len(result) + idx ≥ 0` the entry at `len(result) + idx`
is used and its data projected into `_from_previous`, and when
`len(result) + idx < 0` the `IndexError` is swallowed and resolution
returns the payload built from `input` alone. -/

theorem claim6_negative_index_semantics (step : StepSpec) (result : List Value)
    (path s : String) (fields : List String) (idx : Int)
    (hpath : step.input_path = some path)
    (hne : ¬ path = "")
    (hpre : strStartsWith path "previous." = true)
    (hsplit : splitDot path = "previous" :: "steps" :: s :: "data" :: fields)
    (hfld : fields ≠ [])
    (hidx : pyInt s = some idx) (hneg : idx < 0) :
    ((result.length : Int) + idx < 0 → resolve_input step result = step.input.getD []) ∧
    (∀ dd : List (String × Value),
      0 ≤ (result.length : Int) + idx →
      result.get? ((result.length : Int) + idx).toNat = some (Value.dict dd) → dd ≠ [] →
      resolve_input step result
        = setKey (step.input.getD []) "_from_previous"
            (walkFields (dataOrEmpty ((vlookup dd "data").getD Value.none)) fields)) := by
  have hlen5 : 5 ≤ (splitDot path).length := by
    rw [hsplit]
    simp only [List.length_cons]
    have := List.length_pos.mpr hfld
    omega
  have hcond : 5 ≤ (splitDot path).length ∧ (splitDot path).get? 1 = some "steps"
      ∧ (splitDot path).get? 3 = some "data" := by
    refine ⟨hlen5, ?_, ?_⟩ <;> rw [hsplit] <;> rfl
  have hgetD : (splitDot path).getD 2 "" = s := by rw [hsplit]; rfl
  have hlt : idx < (result.length : Int) := by omega
  constructor
  · intro hlow
    simp only [resolve_input, hpath]
    rw [if_neg hne]
    rw [if_pos hpre]
    rw [if_pos hcond]
    rw [hgetD, hidx]
    simp only []
    rw [if_pos hlt]
    have hpi : pyIndex result idx = Option.none := by
      unfold pyIndex
      rw [if_neg (not_le.mpr hneg)]
      rw [if_neg (not_le.mpr hlow)]
    rw [hpi]
  · intro dd hwrap hget hddne
    simp only [resolve_input, hpath]
    rw [if_neg hne]
    rw [if_pos hpre]
    rw [if_pos hcond]
    rw [hgetD, hidx]
    simp only []
    rw [if_pos hlt]
    have hpi : pyIndex result idx = some (Value.dict dd) := by
      unfold pyIndex
      rw [if_neg (not_le.mpr hneg)]
      rw [if_pos hwrap]
      exact hget
    rw [hpi]
    simp only []
    have htr : (Value.dict dd).isTruthy = true := by
      simp [Value.isTruthy, hddne]
    rw [if_pos htr]
    have hdrop : List.drop 4 (splitDot path) = fields := by rw [hsplit]; rfl
    rw [hdrop]

/-- C7: when a registered agent's invocation raises an exception (and is not
cut short by a timeout), the invocation adapter returns
`{status: failed, error: <the exception message>, traceback: <diagnostic
text>}`; the exception never propagates — `call_agent` always returns a
value. -/
theorem claim7_exception_normalized (agents : AgentSet) (name : String) (a : Agent)
    (payload : List (String × Value)) (timeout : Option Int) (dur : Nat) (msg tb : String)
    (hl : lookupAgent agents name = some a)
    (hb : a payload = AgentBehavior.raises dur msg tb)
    (ht : ¬ (timeoutActive timeout = true ∧ (timeout.getD 0 : Int) < (dur : Int))) :
    call_agent agents name payload timeout =
      Value.dict [("status", Value.str "failed"), ("error", Value.str msg),
        ("traceback", Value.str tb)] := by
  unfold call_agent
  rw [hl]
  simp only [hb, AgentBehavior.dur, AgentBehavior.invokeValue]
  rw [if_neg ht]

/-- C8: with a positive timeout `t` set on the step and an agent whose
invocations all run longer than `t`, every invocation result is exactly
`{status: failed, error: "timeout"}` (no partial result), and the step
executor records one such failed attempt per retry and exhausts its budget
(outcome `{status: failed, error: <timeout result>}`) instead of hanging. -/
theorem claim8_timeout_failure (agents : AgentSet) (name : String) (a : Agent)
    (t : Int) (step : StepSpec) (job : Job) (idx : Nat)
    (hl : lookupAgent agents name = some a) (ht0 : 0 < t)
    (hagent : step.agent = name) (htime : step.timeout = some t)
    (hr1 : 1 ≤ step.retry)
    (hdur : ∀ payload, t < ((a payload).dur : Int)) :
    (∀ payload, call_agent agents name payload (some t)
      = Value.dict [("status", Value.str "failed"), ("error", Value.str "timeout")]) ∧
    (∃ job3 : Job,
      run_step agents job idx step = Except.ok (job3,
        Value.dict [("status", Value.str "failed"),
          ("error", Value.dict [("status", Value.str "failed"),
            ("error", Value.str "timeout")])]) ∧
      job3.agent_history.length = job.agent_history.length + step.retry.toNat ∧
      job3.agent_history.map HistEntry.result
        = job.agent_history.map HistEntry.result
          ++ List.replicate step.retry.toNat
              (Value.dict [("status", Value.str "failed"), ("error", Value.str "timeout")])) := by
  have hcall : ∀ payload, call_agent agents name payload (some t)
      = Value.dict [("status", Value.str "failed"), ("error", Value.str "timeout")] := by
    intro payload
    unfold call_agent
    rw [hl]
    simp only []
    rw [if_pos]
    constructor
    · simp [timeoutActive]
      omega
    · simpa using hdur payload
  refine ⟨hcall, ?_⟩
  subst hagent
  have hd : call_agent agents step.agent (resolve_input step job.result) step.timeout
      = Value.dict [("status", Value.str "failed"), ("error", Value.str "timeout")] := by
    rw [htime]
    exact hcall _
  have hr := run_step_fail agents job idx step _ hd rfl
  rw [if_neg (by omega : ¬ step.retry.toNat = 0)] at hr
  refine ⟨_, hr, ?_, ?_⟩
  · simp [failHist_length]
  · simp [failHist_map_result]

/-! ### Witnesses: the theorems applied at concrete inputs -/

/-- A two-step workflow whose agents always succeed. -/
def wfSteps : List StepSpec := [{ agent := "ok" }, { agent := "ok", retry := 2 }]

theorem claim1_witness :
    ∃ jobF : Job,
      run_workflow demoAgents wfSteps = Except.ok jobF ∧
      jobF.status = "finished" ∧
      jobF.result.length = wfSteps.length ∧
      jobF.agent_history.length = wfSteps.length ∧
      jobF.agent_history.map HistEntry.attempt = List.replicate wfSteps.length 1 ∧
      jobF.agent_history.map HistEntry.agent = wfSteps.map StepSpec.agent :=
  claim1_all_success_workflow demoAgents wfSteps
    (by intro s hs; simp [wfSteps] at hs; rcases hs with rfl | rfl <;> decide)
    (by intro s hs payload; simp [wfSteps] at hs; rcases hs with rfl | rfl <;> rfl)

/-- The failing middle step of the C2 witness workflow. -/
def failMidStep : StepSpec := { agent := "bad", retry := 2 }

theorem claim2_witness :
    (∃ job3 : Job,
      run_step demoAgents initialJob 0 failMidStep = Except.ok (job3,
        Value.dict [("status", Value.str "failed"),
          ("error", call_agent demoAgents failMidStep.agent
            (resolve_input failMidStep initialJob.result) failMidStep.timeout)]) ∧
      job3.agent_history.length = initialJob.agent_history.length + 2) ∧
    ∃ jobF : Job,
      run_workflow demoAgents ([{ agent := "ok" }] ++ failMidStep :: [{ agent := "ok" }])
        = Except.ok jobF ∧
      jobF.status = "failed" ∧
      jobF.result.length = [({ agent := "ok" } : StepSpec)].length + 1 ∧
      jobF.agent_history.length = [({ agent := "ok" } : StepSpec)].length + 2 ∧
      jobF.agent_history.map (fun e => (e.attempt, e.agent))
        = [({ agent := "ok" } : StepSpec)].map (fun s => (1, s.agent))
          ++ (List.range 2).map (fun i => (i + 1, failMidStep.agent)) := by
  have h := claim2_failing_step_exhausts_retries demoAgents
    [{ agent := "ok" }] [{ agent := "ok" }] failMidStep 2
    (by intro s hs; simp at hs; subst hs; decide)
    (by intro s hs payload; simp at hs; subst hs; rfl)
    rfl (by decide)
    (fun payload => rfl)
  exact ⟨h.1 initialJob 0, h.2⟩

/-- The always-failing step of the C3 witness, with a 3-attempt budget. -/
def threeRetryFailStep : StepSpec := { agent := "bad", retry := 3 }

theorem claim3_witness :
    ∃ (job3 : Job) (out : Value),
      run_step demoAgents initialJob 0 threeRetryFailStep = Except.ok (job3, out) ∧
      job3.sleeps = initialJob.sleeps
        ++ (List.range threeRetryFailStep.retry.toNat).map (fun i => 500 * 2 ^ i) ∧
      job3.agent_history.length
        = initialJob.agent_history.length + threeRetryFailStep.retry.toNat :=
  claim3_backoff_after_every_failed_attempt demoAgents initialJob 0 threeRetryFailStep
    [("status", Value.str "failed"), ("error", Value.str "boom")] rfl rfl

/-- A Result list whose entry has truthy `data = {g: 1}`: the walk for the
missing field `f` fails even though `data` is present. -/
def truthyDataPrevResult : List Value :=
  [Value.dict [("status", Value.str "success"), ("data", Value.dict [("g", Value.int 1)])]]

theorem claim5_witness :
    resolve_input prevFieldStep [] = prevFieldStep.input.getD [] ∧
    resolve_input prevFieldStep failedPrevResult
      = setKey (prevFieldStep.input.getD []) "_from_previous" Value.none ∧
    resolve_input prevFieldStep truthyDataPrevResult
      = setKey (prevFieldStep.input.getD []) "_from_previous" Value.none :=
  ⟨(claim5_degraded_resolution prevFieldStep [] "previous.steps.0.data.f" "0" ["f"] 0
      rfl (by decide) rfl rfl (by simp) rfl (by decide)).1 (by decide),
   (claim5_degraded_resolution prevFieldStep failedPrevResult
      "previous.steps.0.data.f" "0" ["f"] 0
      rfl (by decide) rfl rfl (by simp) rfl (by decide)).2.1
     [("status", Value.str "failed"), ("data", Value.none)] rfl (by simp) rfl,
   (claim5_degraded_resolution prevFieldStep truthyDataPrevResult
      "previous.steps.0.data.f" "0" ["f"] 0
      rfl (by decide) rfl rfl (by simp) rfl (by decide)).2.2
     [("status", Value.str "success"), ("data", Value.dict [("g", Value.int 1)])]
     [] "f" [] rfl (by simp) rfl
     (by
       intro e he
       have he2 : Value.dict [("g", Value.int 1)] = Value.dict e := he
       injection he2 with h
       subst h
       rfl)⟩

theorem claim6_witness :
    resolve_input negIndexStep [] = negIndexStep.input.getD [] ∧
    resolve_input negIndexStep negPrevResult = [("_from_previous", Value.int 42)] :=
  ⟨(claim6_negative_index_semantics negIndexStep [] "previous.steps.-1.data.f" "-1" ["f"] (-1)
      rfl (by decide) rfl rfl (by simp) rfl (by decide)).1 (by decide),
   (claim6_negative_index_semantics negIndexStep negPrevResult
      "previous.steps.-1.data.f" "-1" ["f"] (-1)
      rfl (by decide) rfl rfl (by simp) rfl (by decide)).2
     [("status", Value.str "success"), ("data", Value.dict [("f", Value.int 42)])]
     (by decide) rfl (by simp)⟩

theorem claim7_witness :
    call_agent demoAgents "boom" [] Option.none =
      Value.dict [("status", Value.str "failed"), ("error", Value.str "kaboom"),
        ("traceback", Value.str "Traceback (most recent call last): ...")] :=
  claim7_exception_normalized demoAgents "boom" boomAgent [] Option.none 0 "kaboom"
    "Traceback (most recent call last): ..." rfl rfl (by simp [timeoutActive])

/-- The C8 witness step: 1 s timeout against the 5 s agent, two attempts. -/
def slowStep : StepSpec := { agent := "slow", retry := 2, timeout := some 1 }

theorem claim8_witness :
    call_agent demoAgents "slow" [] (some 1)
      = Value.dict [("status", Value.str "failed"), ("error", Value.str "timeout")] ∧
    (∃ job3 : Job,
      run_step demoAgents initialJob 0 slowStep = Except.ok (job3,
        Value.dict [("status", Value.str "failed"),
          ("error", Value.dict [("status", Value.str "failed"),
            ("error", Value.str "timeout")])]) ∧
      job3.agent_history.length = initialJob.agent_history.length + slowStep.retry.toNat ∧
      job3.agent_history.map HistEntry.result
        = initialJob.agent_history.map HistEntry.result
          ++ List.replicate slowStep.retry.toNat
              (Value.dict [("status", Value.str "failed"), ("error", Value.str "timeout")])) := by
  have h := claim8_timeout_failure demoAgents "slow" slowAgent 1 slowStep initialJob 0
    rfl (by decide) rfl rfl (by decide)
    (fun payload => by simp only [slowAgent, AgentBehavior.dur]; decide)
  exact ⟨h.1 [], h.2⟩

theorem claim9_witness :
    call_agent demoAgents "nope" [] Option.none
      = Value.dict [("status", Value.str "failed"),
          ("error", Value.str ("agent \x27nope\x27 not registered"))] ∧
    ∃ (job3 : Job) (out : Value),
      run_step demoAgents initialJob 0 { agent := "nope", retry := 3 }
        = Except.ok (job3, out) ∧
      job3.agent_history.length
        = initialJob.agent_history.length + (({ agent := "nope", retry := 3 } : StepSpec)).retry.toNat ∧
      job3.result = initialJob.result ∧ job3.status = initialJob.status := by
  have h := claim9_unregistered_agent demoAgents "nope" rfl
  exact ⟨h.1 [] Option.none, h.2 initialJob 0 { agent := "nope", retry := 3 } rfl⟩

theorem claim10_witness :
    run_step demoAgents initialJob 0 zeroRetryStep
      = Except.ok (initialJob,
          Value.dict [("status", Value.str "failed"), ("error", Value.none)]) ∧
    ∃ jobF : Job,
      exec_steps demoAgents [zeroRetryStep] 0 initialJob = Except.ok jobF ∧
      jobF.status = "failed" ∧
      jobF.agent_history = initialJob.agent_history ∧
      jobF.result = initialJob.result
        ++ [Value.dict [("status", Value.str "failed"), ("data", Value.none)]] := by
  have h := claim10_zero_retry_no_attempts demoAgents initialJob 0 zeroRetryStep (by decide)
  exact ⟨h.1, h.2 []⟩
